import Mathlib

/-!
Verification development for the RepoInsightAI repository.

The Lean definitions below are a shallow embedding of the repository's
Python source files:

* `src/language_utils.py` — the extension→language table;
* `src/doc_generator.py`  — `generate_quick_start` (file classification walk,
  key-file summarization loop, final synthesis) and `generate_api_docs`;
* `src/git_utils.py`      — `clone_or_pull_repo`;
* `src/index_builder.py`  — `get_or_create_index`;
* `main.py`               — `clean_markdown_output`.

File names are modelled as `String` (lists of characters); file sizes as
`Option Nat` (`none` models an `OSError` from `os.path.getsize`).  External
collaborators (the LLM, the query engine, git, the on-disk filesystem) are
modelled as explicit function parameters returning `Except`/`Bool`, and the
IO behaviour of the stateful functions is captured as an explicit event
trace.
-/

/-! ### Python string primitives

Faithful models of the Python string operations used by the source:
`in` (substring containment), `str.endswith`, `str.startswith`,
`str.split(sep)` for a one-character separator, `str.strip()`, and
`os.path.splitext`. -/

/-- Python `needle in hay` for strings: substring containment. -/
def pyIn (needle hay : String) : Bool :=
  hay.data.tails.any fun t => needle.data.isPrefixOf t

/-- Python `s.endswith(suf)`. -/
def pyEndsWith (s suf : String) : Bool :=
  suf.data.isSuffixOf s.data

/-- Python `s.startswith(pre)`. -/
def pyStartsWith (s p : String) : Bool :=
  p.data.isPrefixOf s.data

/-- Python `s.split(sep)` for a single separator character: splits on every
occurrence of `c`, keeping empty groups, and always returns at least one
group. -/
def splitChar (c : Char) : List Char → List (List Char)
  | [] => [[]]
  | a :: as =>
    match splitChar c as with
    | [] => [[]]
    | g :: gs => if a = c then [] :: g :: gs else (a :: g) :: gs

/-- The extension part of `os.path.splitext` applied to a bare file name:
the substring starting at the last `'.'`, provided some character of the
base name before that dot is not itself a dot (so `".env"` has no
extension), and the empty string otherwise. -/
def splitextExtCore (l : List Char) : List Char :=
  let afterDot := l.reverse.takeWhile fun c => c ≠ '.'
  if afterDot.length = l.length then []
  else
    let base := l.take (l.length - afterDot.length - 1)
    if base.any (fun c => c ≠ '.') then '.' :: afterDot.reverse
    else []

/-- `os.path.splitext(file)[1]` for a bare file name. -/
def splitextExt (file : String) : String :=
  ⟨splitextExtCore file.data⟩

/-! ### `src/language_utils.py` -/

/-- `EXTENSION_TO_LANGUAGE_MAP` from `src/language_utils.py`, as an
association list in source order. -/
def EXTENSION_TO_LANGUAGE_MAP : List (String × String) :=
  [(".js", "javascript"), (".jsx", "javascript"), (".ts", "typescript"),
   (".tsx", "typescript"), (".html", "html"), (".htm", "html"),
   (".css", "css"), (".scss", "scss"), (".less", "less"),
   (".py", "python"), (".java", "java"), (".php", "php"), (".rb", "ruby"),
   (".go", "go"), (".rs", "rust"), (".cs", "c_sharp"), (".kt", "kotlin"),
   (".kts", "kotlin"), (".scala", "scala"), (".swift", "swift"),
   (".m", "objc"), (".pl", "perl"), (".lua", "lua"), (".ex", "elixir"),
   (".exs", "elixir"), (".dart", "dart"), (".erl", "erlang"),
   (".hrl", "erlang"),
   (".c", "c"), (".h", "c"), (".cpp", "cpp"), (".hpp", "cpp"),
   (".cc", "cpp"), (".cxx", "cpp"), (".hh", "cpp"), (".hxx", "cpp"),
   (".json", "json"), (".yaml", "yaml"), (".yml", "yaml"),
   (".toml", "toml"), (".xml", "html"), (".sql", "sql"),
   (".csv", "python"),
   (".sh", "bash"), (".bash", "bash"), (".zsh", "bash"),
   ("Dockerfile", "dockerfile"), (".tf", "terraform"),
   (".hcl", "terraform"), (".groovy", "java"), (".jenkinsfile", "java"),
   (".md", "markdown"), (".rst", "markdown"), (".tex", "latex"),
   (".hs", "haskell"), (".fs", "f_sharp"), (".fsi", "f_sharp"),
   (".ml", "ocaml"), (".mli", "ocaml"),
   (".vue", "vue"), (".svelte", "svelte"), (".res", "rescript")]

/-! ### File classification (`generate_quick_start`, `src/doc_generator.py` lines 41–68) -/

/-- The four buckets of `categorized_files`; `SourceCode` carries the
language key of the inner `defaultdict`. -/
inductive Category where
  | Documentation
  | Configuration
  | SourceCode (language : String)
  | Other
deriving DecidableEq, Repr

/-- `doc_files` from `generate_quick_start`. -/
def doc_files : List String :=
  ["README.md", "CONTRIBUTING.md", "CHANGELOG.md", ".md", ".rst"]

/-- `config_files` from `generate_quick_start`. -/
def config_files : List String :=
  ["requirements.txt", "package.json", "Dockerfile", ".env", ".yaml",
   ".yml", ".toml", ".ini", ".cfg"]

/-- `file in doc_files or any(file.endswith(ext) for ext in doc_files if
ext.startswith('.'))`. -/
def isDocFile (file : String) : Bool :=
  doc_files.contains file ||
    (doc_files.filter fun e => pyStartsWith e ".").any fun e => pyEndsWith file e

/-- `file in config_files or any(file.endswith(ext) for ext in config_files
if ext.startswith('.'))`. -/
def isConfigFile (file : String) : Bool :=
  config_files.contains file ||
    (config_files.filter fun e => pyStartsWith e ".").any fun e => pyEndsWith file e

/-- The per-file classification of `generate_quick_start`: the `if/elif`
chain over a file's bare name together with the size rule for the `Other`
bucket.  `size = none` models `os.path.getsize` raising `OSError` (the file
is skipped); a file of known size `n` lands in `Other` only when
`n < 1_000_000`. -/
def classifyFile (file : String) (size : Option Nat) : Option Category :=
  if isDocFile file then some .Documentation
  else if isConfigFile file then some .Configuration
  else
    match (EXTENSION_TO_LANGUAGE_MAP.lookup (splitextExt file)) with
    | some language => some (.SourceCode language)
    | none =>
      match size with
      | some n => if n < 1000000 then some .Other else none
      | none => none

/-- One directory visited by `os.walk`: its path components below the
walk root, and its directory entries as (bare name, size) pairs. -/
structure WalkDir where
  rel : List String
  files : List (String × Option Nat)
deriving DecidableEq

/-- The `root` string `os.walk` reports for a directory: the walk root
joined with the relative components by `/` (as `os.path.join` does on
POSIX). -/
def rootStr (repoPath : String) : List String → String
  | [] => repoPath
  | d :: ds => rootStr (repoPath ++ "/" ++ d) ds

/-- The exclusion strings of the `generate_quick_start` walk (line 50 of
`src/doc_generator.py`). -/
def quickStartExcludes : List String :=
  [".git", "__pycache__", "node_modules", "target", "build", "dist"]

/-- `any(d in root for d in [...])`: the pruning test of the
`generate_quick_start` walk.  Note this is Python substring containment on
the whole `root` path string, not name equality. -/
def quickStartPruned (repoPath : String) (rel : List String) : Bool :=
  quickStartExcludes.any fun d => pyIn d (rootStr repoPath rel)

/-- The contribution of one walked directory to `categorized_files`:
nothing when the directory is pruned, otherwise each file paired with its
category (files the classification drops yield nothing). -/
def classifyDir (repoPath : String) (wd : WalkDir) : List (String × Category) :=
  if quickStartPruned repoPath wd.rel then []
  else
    wd.files.filterMap fun f =>
      match classifyFile f.1 f.2 with
      | some c => some (rootStr repoPath wd.rel ++ "/" ++ f.1, c)
      | none => none

/-- The whole classification walk over a list of visited directories. -/
def classifyWalk (repoPath : String) (dirs : List WalkDir) : List (String × Category) :=
  dirs.flatMap (classifyDir repoPath)

/-! ### `src/git_utils.py` -/

/-- `parsed_url.path.split("/")[-1].split('.')[0]` from `clone_or_pull_repo`
(line 31): the repository directory name derived from the path component of
the URL.  Python's `split` never returns an empty list, so the `[-1]` and
`[0]` indexing is modelled with total default accessors. -/
def repoNameOfPath (path : String) : String :=
  ⟨(splitChar '.' ((splitChar '/' path.data).getLastD [])).headD []⟩

/-- `clone_or_pull_repo` from `src/git_utils.py`, with the external world
made explicit: `urlPath` is the path component `urlparse` extracts from the
URL, `pathExists` models `os.path.exists`, and `pull`/`clone` are the
outcomes of the two git operations (`.error e` models a raised exception,
whose message the function prints and swallows, returning `None`). -/
def clone_or_pull_repo (reposDir urlPath : String) (pathExists : String → Bool)
    (pull clone : Except String Unit) : Option String :=
  let repoName := repoNameOfPath urlPath
  let localRepoPath := reposDir ++ "/" ++ repoName
  if pathExists localRepoPath then
    match pull with
    | .error _ => none
    | .ok _ => some localRepoPath
  else
    match clone with
    | .error _ => none
    | .ok _ => some localRepoPath

/-! ### `src/index_builder.py` -/

/-- The observable filesystem/index events performed by
`get_or_create_index`. -/
inductive IBEffect where
  | loadStorage (dir : String)
  | readRepoFile (p : String)
  | buildIndex
  | persistIndex (dir : String)
deriving DecidableEq, Repr

/-- `os.path.basename` (POSIX): the part of the path after the last `/`. -/
def basename (p : String) : String :=
  ⟨(splitChar '/' p.data).getLastD []⟩

/-- `get_or_create_index` from `src/index_builder.py`, as an event trace
plus outcome.  External collaborators are explicit parameters: `pathExists`
models `os.path.exists`; `readerFiles` is the list of files the external
`SimpleDirectoryReader` selects under the repository (each one is read on
the build path); `parsedNodes` is the node list the external
splitters produce from those documents.  On the load path the persisted
storage is deserialized and the node list is taken from the loaded
docstore, with no repository file read; on the build path, when no node at
all was parsed the function raises `ValueError` (the `.error` outcome)
before any index is built or persisted. -/
def get_or_create_index (storageDir repoPath : String) (pathExists : String → Bool)
    (readerFiles : List String) (parsedNodes : List String) :
    List IBEffect × Except String Unit :=
  let repoName := basename repoPath
  let storagePath := storageDir ++ "/" ++ repoName
  if pathExists storagePath then
    ([.loadStorage storagePath], .ok ())
  else
    let readEvents := readerFiles.map IBEffect.readRepoFile
    if parsedNodes.isEmpty then
      (readEvents,
       .error "No documents were successfully parsed. Cannot create an index.")
    else
      (readEvents ++ [.buildIndex, .persistIndex storagePath], .ok ())

/-! ### `generate_quick_start`, summarization and synthesis
(`src/doc_generator.py` lines 102–148) -/

/-- The `KeyFileInfo` pydantic model. -/
structure KeyFileInfo where
  file_path : String
  reason : String
deriving DecidableEq, Repr

/-- The query text sent to the query engine for one key file (line 116). -/
def summaryQueryText (fp : String) : String :=
  "Summarize the purpose and content of the file: `" ++ fp ++ "`"

/-- The summaries entry appended when the query succeeds (line 117). -/
def summarySection (kf : KeyFileInfo) (resp : String) : String :=
  "### File: `" ++ kf.file_path ++ "`\n**Importance:** " ++ kf.reason ++
    "\n**Summary:**\n" ++ resp ++ "\n"

/-- The summaries entry appended when the query raises (line 119). -/
def errorSection (kf : KeyFileInfo) (e : String) : String :=
  "### File: `" ++ kf.file_path ++
    "`\n**Error:** Could not summarize this file. Details: " ++ e ++ "\n"

/-- The per-key-file summarization loop (lines 113–119): one query per
file; a raising query (`.error`) is caught and replaced by an inline error
note. -/
def summarizeKeyFiles (query : String → Except String String)
    (keyFiles : List KeyFileInfo) : List String :=
  keyFiles.map fun kf =>
    match query (summaryQueryText kf.file_path) with
    | .ok resp => summarySection kf resp
    | .error e => errorSection kf e

/-- The observable outcome of one `generate_quick_start` run: the
`summaries` list built by the loop, whether the final `llm.predict`
synthesis call was reached, and the returned string. -/
structure GQSRun where
  summaries : List String
  synthesisCalled : Bool
  result : String
deriving DecidableEq, Repr

/-- `generate_quick_start` from the key-file selection call onward
(lines 102–148 of `src/doc_generator.py`).  `selection` is the outcome of
`llm.structured_predict` on the selection prompt; `query` the query
engine; `predictFinal` the final `llm.predict` synthesis call on the
joined summaries. -/
def generate_quick_start (selection : Except String (List KeyFileInfo))
    (query : String → Except String String)
    (predictFinal : String → Except String String) : GQSRun :=
  match selection with
  | .error e =>
    ⟨[], false, "Error: Could not identify key files using the LLM. Details: " ++ e⟩
  | .ok keyFiles =>
    let summaries := summarizeKeyFiles query keyFiles
    let summariesStr := String.intercalate "\n---\n" summaries
    match predictFinal summariesStr with
    | .ok r => ⟨summaries, true, r⟩
    | .error e =>
      ⟨summaries, true, "Error: Could not synthesize the final guide. Details: " ++ e⟩

/-! ### `generate_api_docs` (`src/doc_generator.py` lines 177–249) -/

/-- The `APIParameter` pydantic model. -/
structure APIParameter where
  name : String
  param_type : String
  description : String
deriving DecidableEq, Repr

/-- The `APIMethod` pydantic model. -/
structure APIMethod where
  name : String
  parameters : List APIParameter
  returns : String
  description : String
deriving DecidableEq, Repr

/-- The `APIClass` pydantic model. -/
structure APIClass where
  name : String
  description : String
  methods : List APIMethod
deriving DecidableEq, Repr

/-- The `APIFile` pydantic model. -/
structure APIFile where
  file_path : String
  classes : List APIClass
  functions : List APIMethod
deriving DecidableEq, Repr

/-- The two-line Markdown rendering of one method or standalone function
(lines 235–237 / 243–245). -/
def renderMethodLine (m : APIMethod) : String :=
  let params := String.intercalate ", "
    (m.parameters.map fun p => p.name ++ ": *" ++ p.param_type ++ "*")
  "- **`" ++ m.name ++ "`**(" ++ params ++ ") -> *" ++ m.returns ++ "*\n" ++
    "  - " ++ m.description ++ "\n"

/-- The Markdown block for one class (lines 230–238; the `if cls.methods`
guard in the source only skips an empty loop, which joining an empty list
reproduces). -/
def renderClassBlock (cls : APIClass) : String :=
  "### class `" ++ cls.name ++ "`\n" ++ "> " ++ cls.description ++ "\n\n" ++
    String.join (cls.methods.map renderMethodLine) ++ "\n"

/-- The Markdown document built from one structured response
(lines 228–245; the `if structured_response.classes` guard likewise only
skips an empty loop). -/
def renderAPIFile (af : APIFile) : String :=
  "## File: `" ++ af.file_path ++ "`\n\n" ++
    String.join (af.classes.map renderClassBlock) ++
    (if af.functions.isEmpty then ""
     else "### Standalone Functions\n" ++
       String.join (af.functions.map renderMethodLine))

/-- The exclusion strings of the `generate_api_docs` walk (line 196; note
`__pycache__` is absent here, unlike the `generate_quick_start` walk). -/
def apiDocExcludes : List String :=
  [".git", "node_modules", "target", "build", "dist"]

/-- The `source_files` enumeration of `generate_api_docs` (lines 193–200):
files under non-pruned directories whose `splitext` extension is a key of
the language table, in walk order. -/
def apiSourceFiles (repoPath : String) (dirs : List WalkDir) : List String :=
  dirs.flatMap fun wd =>
    if apiDocExcludes.any (fun d => pyIn d (rootStr repoPath wd.rel)) then []
    else
      wd.files.filterMap fun f =>
        if (EXTENSION_TO_LANGUAGE_MAP.lookup (splitextExt f.1)).isSome then
          some (rootStr repoPath wd.rel ++ "/" ++ f.1)
        else none

/-- The observable external events of the `generate_api_docs` per-file
loop. -/
inductive ApiEvent where
  | readFile (p : String)
  | extractCall (p : String)
deriving DecidableEq, Repr

/-- The per-file loop of `generate_api_docs` (lines 218–247): for each
file, read its content (`readF`), then run the structured extraction call
(`extract`).  Neither call is guarded by a `try`, so the first `.error`
(a raised exception) stops the loop and propagates, discarding every
already-rendered section. -/
def processApiFiles (readF : String → Except String String)
    (extract : String → String → Except String APIFile) :
    List String → List ApiEvent × Except String (List String)
  | [] => ([], .ok [])
  | fp :: rest =>
    match readF fp with
    | .error e => ([.readFile fp], .error e)
    | .ok content =>
      match extract fp content with
      | .error e => ([.readFile fp, .extractCall fp], .error e)
      | .ok af =>
        let (evs, r) := processApiFiles readF extract rest
        (.readFile fp :: .extractCall fp :: evs,
         match r with
         | .error e => .error e
         | .ok l => .ok (renderAPIFile af :: l))

/-- `generate_api_docs` from `src/doc_generator.py`: enumerate source
files from the walk; when none is found return the fixed message without
reading any file or calling the LLM; otherwise run the per-file loop and
join the rendered sections. -/
def generate_api_docs (repoPath : String) (dirs : List WalkDir)
    (readF : String → Except String String)
    (extract : String → String → Except String APIFile) :
    List ApiEvent × Except String String :=
  let sourceFiles := apiSourceFiles repoPath dirs
  if sourceFiles.isEmpty then
    ([], .ok "No source code files found to generate API documentation.")
  else
    match processApiFiles readF extract sourceFiles with
    | (evs, .error e) => (evs, .error e)
    | (evs, .ok l) => (evs, .ok (String.intercalate "\n---\n" l))

/-! ### `clean_markdown_output` (`main.py` lines 22–32)

The source applies `re.match(r"^```(\w*\n)?(.*?)```$", raw_text,
re.DOTALL)` and returns `group(2).strip()` on a match, `raw_text.strip()`
otherwise.  The functional model below implements exactly that regex's
backtracking semantics:

* the string must start with three backticks;
* the greedy optional group `(\w*\n)?` consumes the maximal run of word
  characters when it is immediately followed by a newline (backtracking to
  a shorter run is impossible because every shorter run is followed by a
  word character, and when the group fails no fence can begin inside the
  consumed region, so trying the group absent finds the same closings);
* the lazy `(.*?)` makes group 2 end at the first position from which
  three backticks reach the end of the string, or reach the final
  character with exactly one `'\n'` after them (the `$` of `re.DOTALL`
  also matches just before a terminal newline).

`\w` is modelled as ASCII alphanumerics plus underscore (the tags the
source strips, such as `markdown`, are ASCII). -/

lemma getLastD_irrel {α : Type} (a : α) (t : List α) (d₁ d₂ : α) :
    (a :: t).getLastD d₁ = (a :: t).getLastD d₂ := by
  rw [List.getLastD_cons, List.getLastD_cons]

lemma takeWhile_append_stop {α : Type} (p : α → Bool) {l : List α} (a : α) (r : List α)
    (h : ∀ x ∈ l, p x = true) (ha : p a = false) :
    (l ++ a :: r).takeWhile p = l := by
  induction l with
  | nil => simp [List.takeWhile_cons, ha]
  | cons x xs ih =>
    have hx : p x = true := h x (by simp)
    simp only [List.cons_append, List.takeWhile_cons, hx, if_true]
    rw [ih fun y hy => h y (by simp [hy])]

lemma pyIn_of_infix {needle hay : String} (h : needle.data <:+: hay.data) :
    pyIn needle hay = true := by
  unfold pyIn
  rw [List.any_eq_true]
  obtain ⟨t, hpre, hsuf⟩ := List.infix_iff_prefix_suffix.mp h
  exact ⟨t, (List.mem_tails _ _).mpr hsuf, List.isPrefixOf_iff_prefix.mpr hpre⟩

/-! ### Helper lemmas: `splitChar` -/

lemma splitChar_ne_nil (c : Char) : ∀ l : List Char, splitChar c l ≠ []
  | [] => by simp [splitChar]
  | a :: as => by
    simp only [splitChar]
    cases h : splitChar c as with
    | nil => simp
    | cons g gs => by_cases hac : a = c <;> simp [hac]

lemma splitChar_not_mem {c : Char} : ∀ {l : List Char}, c ∉ l → splitChar c l = [l]
  | [], _ => rfl
  | a :: as, h => by
    have hac : ¬ a = c := fun hh => h (by simp [hh])
    have has : c ∉ as := fun hh => h (by simp [hh])
    simp only [splitChar, splitChar_not_mem has]
    simp [hac]

lemma splitChar_two_le {c : Char} : ∀ {l : List Char}, c ∈ l → 2 ≤ (splitChar c l).length
  | a :: as, h => by
    simp only [splitChar]
    cases hsp : splitChar c as with
    | nil => exact absurd hsp (splitChar_ne_nil c as)
    | cons g gs =>
      show 2 ≤ (if a = c then [] :: g :: gs else (a :: g) :: gs).length
      by_cases hac : a = c
      · rw [if_pos hac]
        simp only [List.length_cons]
        omega
      · rw [if_neg hac]
        have hcas : c ∈ as := by
          rcases List.mem_cons.mp h with h1 | h1
          · exact absurd h1.symm hac
          · exact h1
        have h2 := splitChar_two_le hcas
        rw [hsp] at h2
        simp only [List.length_cons] at h2 ⊢
        omega

lemma splitChar_headD (c : Char) : ∀ l : List Char,
    (splitChar c l).headD [] = l.takeWhile fun a => a ≠ c
  | [] => rfl
  | a :: as => by
    have ih := splitChar_headD c as
    simp only [splitChar]
    cases h : splitChar c as with
    | nil => exact absurd h (splitChar_ne_nil c as)
    | cons g gs =>
      rw [h] at ih
      simp only [List.headD_cons] at ih
      by_cases hac : a = c
      · subst hac
        simp [List.takeWhile_cons]
      · simp [hac, List.takeWhile_cons, ih]

lemma splitChar_getLastD_sep (c : Char) (seg : List Char) (hseg : c ∉ seg) :
    ∀ pre : List Char, (splitChar c (pre ++ c :: seg)).getLastD [] = seg := by
  intro pre
  induction pre with
  | nil =>
    rw [List.nil_append]
    show (splitChar c (c :: seg)).getLastD [] = seg
    simp only [splitChar, splitChar_not_mem hseg]
    simp
  | cons a pre' ih =>
    rw [List.cons_append]
    cases hsp : splitChar c (pre' ++ c :: seg) with
    | nil => exact absurd hsp (splitChar_ne_nil c _)
    | cons g gs =>
      rw [hsp] at ih
      have h2 : 2 ≤ (g :: gs).length := by
        have := splitChar_two_le (c := c) (l := pre' ++ c :: seg) (by simp)
        rwa [hsp] at this
      obtain ⟨g2, gs2, rfl⟩ : ∃ g2 gs2, gs = g2 :: gs2 := by
        cases gs with
        | nil => simp at h2
        | cons x xs => exact ⟨x, xs, rfl⟩
      show (splitChar c (a :: (pre' ++ c :: seg))).getLastD [] = seg
      simp only [splitChar, hsp]
      by_cases hac : a = c
      · rw [if_pos hac, List.getLastD_cons]
        exact ih
      · rw [if_neg hac, List.getLastD_cons]
        rw [List.getLastD_cons] at ih
        rw [getLastD_irrel g2 gs2 (a :: g) g]
        exact ih

/-! ### Helper lemmas: the walk and the classifier -/

lemma rootStr_data_isPre : ∀ (ds : List String) (p : String),
    p.data <+: (rootStr p ds).data
  | [], _ => List.prefix_refl _
  | d :: ds, p => by
    have ih := rootStr_data_isPre ds (p ++ "/" ++ d)
    show p.data <+: (rootStr (p ++ "/" ++ d) ds).data
    refine List.IsPrefix.trans ?_ ih
    rw [String.data_append, String.data_append]
    exact (List.prefix_append _ _).trans (List.prefix_append _ _)

lemma rootStr_infix_of_mem : ∀ (ds : List String) (p : String) {d : String},
    d ∈ ds → d.data <:+: (rootStr p ds).data
  | d' :: ds, p, d, h => by
    show d.data <:+: (rootStr (p ++ "/" ++ d') ds).data
    rcases List.mem_cons.mp h with h1 | h1
    · subst h1
      refine List.IsInfix.trans ?_ (rootStr_data_isPre ds (p ++ "/" ++ d)).isInfix
      rw [String.data_append, String.data_append]
      exact (List.suffix_append _ _).isInfix
    · exact rootStr_infix_of_mem ds (p ++ "/" ++ d') h1

lemma quickStartPruned_of_mem {d p : String} {rel : List String}
    (h₁ : d ∈ quickStartExcludes) (h₂ : d ∈ rel) :
    quickStartPruned p rel = true := by
  unfold quickStartPruned
  rw [List.any_eq_true]
  exact ⟨d, h₁, pyIn_of_infix (rootStr_infix_of_mem rel p h₂)⟩

lemma classifyFile_isSome_of_small (file : String) (n : Nat) (h : n < 1000000) :
    (classifyFile file (some n)).isSome = true := by
  unfold classifyFile
  by_cases h1 : isDocFile file
  · simp [h1]
  · by_cases h2 : isConfigFile file
    · simp [h1, h2]
    · cases h3 : EXTENSION_TO_LANGUAGE_MAP.lookup (splitextExt file) with
      | some lang => simp [h1, h2, h3]
      | none => simp [h1, h2, h3, h]

/-! ### Helper lemmas: `generate_api_docs` -/

lemma processApiFiles_error (readF : String → Except String String)
    (extract : String → String → Except String APIFile) :
    ∀ (files : List String) (fp : String), fp ∈ files →
    ((∃ e, readF fp = .error e) ∨
      (∃ c e, readF fp = .ok c ∧ extract fp c = .error e)) →
    ∃ e, (processApiFiles readF extract files).2 = .error e := by
  intro files
  induction files with
  | nil => intro fp h; simp at h
  | cons f rest ih =>
    intro fp hmem hfail
    rcases List.mem_cons.mp hmem with rfl | hrest
    · rcases hfail with ⟨e, he⟩ | ⟨c, e, hc, he⟩
      · exact ⟨e, by simp [processApiFiles, he]⟩
      · exact ⟨e, by simp [processApiFiles, hc, he]⟩
    · cases hr : readF f with
      | error e => exact ⟨e, by simp [processApiFiles, hr]⟩
      | ok c =>
        cases hx : extract f c with
        | error e => exact ⟨e, by simp [processApiFiles, hr, hx]⟩
        | ok af =>
          obtain ⟨e, he⟩ := ih fp hrest hfail
          refine ⟨e, ?_⟩
          simp only [processApiFiles, hr, hx]
          cases hrec : processApiFiles readF extract rest with
          | mk evs r =>
            rw [hrec] at he
            simp only at he
            simp [he]

/-! ### Helper lemmas: `clean_markdown_output` -/

/-- C1 counterexample: in `generate_quick_start`, a directory named
`rebuild` — whose name is not a member of the exclusion set — is
nonetheless pruned, because the pruning test is Python substring
containment (`"build" in "repo/rebuild"`): its small unknown-extension
file lands in no category, contradicting the claim that such files are
dropped only by the 1 MB size rule. -/
theorem C1_name_membership_counterexample :
    (∀ d ∈ quickStartExcludes, d ∉ (["rebuild"] : List String)) ∧
    classifyDir "repo" ⟨["rebuild"], [("a.qqq", some 10)]⟩ = [] := by
  constructor
  · decide
  · decide

/-- C1 (amended): in the `generate_quick_start` walk, pruning is decided
by substring containment of the exclusion strings in the full directory
path.  Membership of an ancestor directory name in the exclusion set
still implies the directory's files appear in no category; and whenever
the substring test fails, every file of known size below 1,000,000 bytes
is classified into some category. -/
theorem C1_pruning_amended (repoPath : String) (wd : WalkDir) :
    ((∃ d, d ∈ quickStartExcludes ∧ d ∈ wd.rel) → classifyDir repoPath wd = []) ∧
    (quickStartPruned repoPath wd.rel = false →
      ∀ f ∈ wd.files, ∀ n, f.2 = some n → n < 1000000 →
        ∃ c, (rootStr repoPath wd.rel ++ "/" ++ f.1, c) ∈ classifyDir repoPath wd) := by
  constructor
  · rintro ⟨d, hd, hrel⟩
    simp [classifyDir, quickStartPruned_of_mem hd hrel]
  · intro hp f hf n hn hlt
    have hsome : (classifyFile f.1 f.2).isSome = true := by
      rw [hn]
      exact classifyFile_isSome_of_small f.1 n hlt
    obtain ⟨c, hc⟩ := Option.isSome_iff_exists.mp hsome
    refine ⟨c, ?_⟩
    unfold classifyDir
    rw [if_neg (by simp [hp])]
    rw [List.mem_filterMap]
    exact ⟨f, hf, by rw [hc]⟩

/-- C1 witness: a `.git` directory is pruned, and a small file in an
innocuous directory is classified. -/
theorem C1_pruning_amended_witness :
    classifyDir "repo2" ⟨[".git"], [("a.py", some 5)]⟩ = [] ∧
    ∃ c, ("repo2/srcd/a.qqq", c) ∈
      classifyDir "repo2" ⟨["srcd"], [("a.qqq", some 10)]⟩ := by
  constructor
  · exact (C1_pruning_amended "repo2" ⟨[".git"], [("a.py", some 5)]⟩).1
      ⟨".git", by decide, by decide⟩
  · exact (C1_pruning_amended "repo2" ⟨["srcd"], [("a.qqq", some 10)]⟩).2
      (by decide) ("a.qqq", some 10) (by decide) 10 rfl (by decide)

/-- C2 counterexample: with no existing storage entry and a repository
whose documents yield no parsed node, `get_or_create_index` reads the
reader's files but raises `ValueError` without building or persisting any
index — contradicting the claim that the fresh-build path always builds
and persists. -/
theorem C2_freshness_counterexample :
    (get_or_create_index "storage" "repos/r" (fun _ => false)
        ["repos/r/data.bin"] []).2 =
      Except.error "No documents were successfully parsed. Cannot create an index." ∧
    IBEffect.persistIndex "storage/r" ∉
      (get_or_create_index "storage" "repos/r" (fun _ => false)
        ["repos/r/data.bin"] []).1 ∧
    IBEffect.buildIndex ∉
      (get_or_create_index "storage" "repos/r" (fun _ => false)
        ["repos/r/data.bin"] []).1 := by
  exact ⟨rfl, by decide, by decide⟩

/-- C2 (amended): if the storage directory named by the repository's
basename exists, `get_or_create_index` only deserializes that entry —
reading no repository file, building nothing and persisting nothing —
and the decision is made purely by the path-existence test; otherwise it
reads the files the reader selects and, provided at least one node was
parsed, builds a fresh index and persists it under that key, while with
zero parsed nodes it raises an error after the reads, without building or
persisting. -/
theorem C2_load_or_build_amended (storageDir repoPath : String)
    (pathExists : String → Bool) (readerFiles parsedNodes : List String) :
    (pathExists (storageDir ++ "/" ++ basename repoPath) = true →
      get_or_create_index storageDir repoPath pathExists readerFiles parsedNodes =
        ([IBEffect.loadStorage (storageDir ++ "/" ++ basename repoPath)], .ok ()) ∧
      ∀ p, IBEffect.readRepoFile p ∉
        (get_or_create_index storageDir repoPath pathExists readerFiles parsedNodes).1) ∧
    (pathExists (storageDir ++ "/" ++ basename repoPath) = false → parsedNodes ≠ [] →
      get_or_create_index storageDir repoPath pathExists readerFiles parsedNodes =
        (readerFiles.map IBEffect.readRepoFile ++
          [IBEffect.buildIndex, IBEffect.persistIndex (storageDir ++ "/" ++ basename repoPath)],
         .ok ())) ∧
    (pathExists (storageDir ++ "/" ++ basename repoPath) = false → parsedNodes = [] →
      get_or_create_index storageDir repoPath pathExists readerFiles parsedNodes =
        (readerFiles.map IBEffect.readRepoFile,
         .error "No documents were successfully parsed. Cannot create an index.")) := by
  refine ⟨?_, ?_, ?_⟩
  · intro h
    refine ⟨by simp [get_or_create_index, h], ?_⟩
    intro p
    simp [get_or_create_index, h]
  · intro h hne
    simp [get_or_create_index, h, hne]
  · intro h hnil
    subst hnil
    simp [get_or_create_index, h]

/-- C2 witness: the load path at an existing entry, and the build path at
a fresh one. -/
theorem C2_load_or_build_amended_witness :
    get_or_create_index "storage" "repos/r" (fun _ => true) ["repos/r/a.py"] ["n1"] =
      ([IBEffect.loadStorage "storage/r"], .ok ()) ∧
    get_or_create_index "storage" "repos/r" (fun _ => false) ["repos/r/a.py"] ["n1"] =
      ([IBEffect.readRepoFile "repos/r/a.py", IBEffect.buildIndex,
        IBEffect.persistIndex "storage/r"], .ok ()) := by
  constructor
  · exact ((C2_load_or_build_amended "storage" "repos/r" (fun _ => true)
      ["repos/r/a.py"] ["n1"]).1 rfl).1
  · exact (C2_load_or_build_amended "storage" "repos/r" (fun _ => false)
      ["repos/r/a.py"] ["n1"]).2.1 rfl (by decide)

/-- C3: every file whose name is an exact documentation filename or ends
in `.md` or `.rst` is classified as Documentation (and hence in no other
category), regardless of its size and of its extension also appearing in
the language table. -/
theorem C3_doc_precedence (file : String) (size : Option Nat)
    (h : file ∈ (["README.md", "CONTRIBUTING.md", "CHANGELOG.md"] : List String) ∨
      pyEndsWith file ".md" = true ∨ pyEndsWith file ".rst" = true) :
    classifyFile file size = some Category.Documentation := by
  have hdoc : isDocFile file = true := by
    unfold isDocFile
    rcases h with h | h | h
    · have hc : doc_files.contains file = true := by
        simp only [List.mem_cons, List.not_mem_nil, or_false] at h
        rcases h with rfl | rfl | rfl <;> decide
      rw [hc, Bool.true_or]
    · have hany : ((doc_files.filter fun e => pyStartsWith e ".").any
          fun e => pyEndsWith file e) = true := by
        rw [show (doc_files.filter fun e => pyStartsWith e ".") =
          ([".md", ".rst"] : List String) from by decide]
        simp [h]
      rw [hany, Bool.or_true]
    · have hany : ((doc_files.filter fun e => pyStartsWith e ".").any
          fun e => pyEndsWith file e) = true := by
        rw [show (doc_files.filter fun e => pyStartsWith e ".") =
          ([".md", ".rst"] : List String) from by decide]
        simp [h]
      rw [hany, Bool.or_true]
  simp [classifyFile, hdoc]

/-- C3 witness: `README.md` is Documentation (even though `.md` is a key
of the language table). -/
theorem C3_doc_precedence_witness :
    ("README.md" ∈ (["README.md", "CONTRIBUTING.md", "CHANGELOG.md"] : List String) ∨
      pyEndsWith "README.md" ".md" = true ∨ pyEndsWith "README.md" ".rst" = true) ∧
    classifyFile "README.md" (some 0) = some Category.Documentation :=
  ⟨Or.inl (by decide), C3_doc_precedence "README.md" (some 0) (Or.inl (by decide))⟩

/-- C4 counterexample: `clone_or_pull_repo` truncates the final URL path
segment at its first dot, so the segment `my.repo` — which has no trailing
`.git` — is not used unchanged: it becomes `my`. -/
theorem C4_first_dot_counterexample :
    repoNameOfPath "/TigerkidYang/my.repo" = "my" ∧
    ("my" : String) ≠ "my.repo" ∧
    clone_or_pull_repo "repos" "/TigerkidYang/my.repo" (fun _ => false)
      (.ok ()) (.ok ()) = some "repos/my" := by
  exact ⟨by decide, by decide, by decide⟩

/-- C4 (amended): the local directory name is the URL's final path
segment truncated at its first dot; in particular a final segment
`name.git` with a dot-free `name` maps to `name`, but a segment
containing a dot anywhere is cut at that first dot rather than used
unchanged. -/
theorem C4_repo_name_amended (pre seg : List Char) (hseg : '/' ∉ seg) :
    (repoNameOfPath ⟨pre ++ '/' :: seg⟩ = ⟨seg.takeWhile fun c => c ≠ '.'⟩) ∧
    (∀ base : List Char, '.' ∉ base → seg = base ++ '.' :: ['g', 'i', 't'] →
      repoNameOfPath ⟨pre ++ '/' :: seg⟩ = ⟨base⟩) := by
  have hmain : repoNameOfPath ⟨pre ++ '/' :: seg⟩ =
      ⟨seg.takeWhile fun c => c ≠ '.'⟩ := by
    unfold repoNameOfPath
    rw [show (String.mk (pre ++ '/' :: seg)).data = pre ++ '/' :: seg from rfl]
    rw [splitChar_getLastD_sep '/' seg hseg pre]
    rw [splitChar_headD]
  refine ⟨hmain, ?_⟩
  intro base hbase hsegeq
  rw [hmain, hsegeq]
  congr 1
  refine takeWhile_append_stop _ '.' _ (fun x hx => ?_) (by decide)
  have hx' : x ≠ '.' := fun he => hbase (he ▸ hx)
  exact decide_eq_true hx'

/-- C4 witness: the amended rule evaluated on `my.repo` and `name.git`. -/
theorem C4_repo_name_amended_witness :
    repoNameOfPath "/u/my.repo" = "my" ∧ repoNameOfPath "/u/name.git" = "name" := by
  have h1 := (C4_repo_name_amended "/u".data "my.repo".data (by decide)).1
  have h2 := (C4_repo_name_amended "/u".data "name.git".data (by decide)).2
    "name".data (by decide) (by decide)
  exact ⟨h1.trans (by decide), h2⟩

/-- C7: for a file matching no documentation, configuration or
language-table rule, classification places it in Other exactly when its
size is strictly below 1,000,000 bytes, drops it exactly when its size is
at least 1,000,000 bytes, and depends on the size only through that
threshold test. -/
theorem C7_other_size_cap (file : String) (n : Nat)
    (hdoc : isDocFile file = false) (hcfg : isConfigFile file = false)
    (hext : EXTENSION_TO_LANGUAGE_MAP.lookup (splitextExt file) = none) :
    (classifyFile file (some n) = some Category.Other ↔ n < 1000000) ∧
    (classifyFile file (some n) = none ↔ 1000000 ≤ n) ∧
    (∀ m : Nat, (n < 1000000 ↔ m < 1000000) →
      classifyFile file (some n) = classifyFile file (some m)) := by
  have hred : ∀ k : Nat, classifyFile file (some k) =
      if k < 1000000 then some Category.Other else none := by
    intro k
    simp [classifyFile, hdoc, hcfg, hext]
  refine ⟨?_, ?_, ?_⟩
  · rw [hred]
    by_cases h : n < 1000000 <;> simp [h]
  · rw [hred]
    by_cases h : n < 1000000
    · simp [h]
    · simp [h]
      omega
  · intro m hm
    rw [hred, hred]
    by_cases h : n < 1000000
    · rw [if_pos h, if_pos (hm.mp h)]
    · rw [if_neg h, if_neg fun hmm => h (hm.mpr hmm)]

/-- C7 witness: the 999,999 / 1,000,000 boundary for an
unknown-extension file. -/
theorem C7_other_size_cap_witness :
    classifyFile "data.xyzq" (some 999999) = some Category.Other ∧
    classifyFile "data.xyzq" (some 1000000) = none := by
  have h1 := C7_other_size_cap "data.xyzq" 999999 (by decide) (by decide) (by decide)
  have h2 := C7_other_size_cap "data.xyzq" 1000000 (by decide) (by decide) (by decide)
  exact ⟨h1.1.mpr (by decide), h2.2.1.mpr (by decide)⟩

/-- C5: when key-file selection succeeds, the summarization loop of
`generate_quick_start` isolates per-file failures: the run reaches the
final synthesis call, and the summaries contain a normal section for every
file whose query succeeded and an inline error note — containing the
underlying error text — for every file whose query raised. -/
theorem C5_partial_failure_isolation (keyFiles : List KeyFileInfo)
    (query predictFinal : String → Except String String) :
    (generate_quick_start (.ok keyFiles) query predictFinal).synthesisCalled = true ∧
    (generate_quick_start (.ok keyFiles) query predictFinal).summaries =
      summarizeKeyFiles query keyFiles ∧
    ∀ kf ∈ keyFiles,
      (∀ r, query (summaryQueryText kf.file_path) = .ok r →
        summarySection kf r ∈
          (generate_quick_start (.ok keyFiles) query predictFinal).summaries) ∧
      (∀ e, query (summaryQueryText kf.file_path) = .error e →
        errorSection kf e ∈
          (generate_quick_start (.ok keyFiles) query predictFinal).summaries ∧
        pyIn e (errorSection kf e) = true) := by
  have hbase : (generate_quick_start (.ok keyFiles) query predictFinal).summaries =
      summarizeKeyFiles query keyFiles ∧
      (generate_quick_start (.ok keyFiles) query predictFinal).synthesisCalled = true := by
    simp only [generate_quick_start]
    cases predictFinal (String.intercalate "\n---\n" (summarizeKeyFiles query keyFiles)) <;>
      exact ⟨rfl, rfl⟩
  refine ⟨hbase.2, hbase.1, ?_⟩
  intro kf hkf
  constructor
  · intro r hr
    rw [hbase.1]
    unfold summarizeKeyFiles
    refine List.mem_map.mpr ⟨kf, hkf, ?_⟩
    rw [hr]
  · intro e he
    refine ⟨?_, ?_⟩
    · rw [hbase.1]
      unfold summarizeKeyFiles
      refine List.mem_map.mpr ⟨kf, hkf, ?_⟩
      rw [he]
    · apply pyIn_of_infix
      show e.data <:+: (errorSection kf e).data
      unfold errorSection
      rw [String.data_append, String.data_append]
      exact List.infix_append _ _ _

/-- C5 witness: of two selected files, one summarizes and one raises; the
run still synthesizes, with a summary section for the first and an inline
error note containing the error text for the second. -/
theorem C5_partial_failure_isolation_witness :
    (generate_quick_start
        (.ok [⟨"README.md", "root doc"⟩, ⟨"main.py", "entry"⟩])
        (fun s => if s = summaryQueryText "main.py" then .error "boom" else .ok "sum")
        (fun _ => .ok "guide")).synthesisCalled = true ∧
    summarySection ⟨"README.md", "root doc"⟩ "sum" ∈
      (generate_quick_start
        (.ok [⟨"README.md", "root doc"⟩, ⟨"main.py", "entry"⟩])
        (fun s => if s = summaryQueryText "main.py" then .error "boom" else .ok "sum")
        (fun _ => .ok "guide")).summaries ∧
    errorSection ⟨"main.py", "entry"⟩ "boom" ∈
      (generate_quick_start
        (.ok [⟨"README.md", "root doc"⟩, ⟨"main.py", "entry"⟩])
        (fun s => if s = summaryQueryText "main.py" then .error "boom" else .ok "sum")
        (fun _ => .ok "guide")).summaries ∧
    pyIn "boom" (errorSection ⟨"main.py", "entry"⟩ "boom") = true := by
  have h := C5_partial_failure_isolation
    [⟨"README.md", "root doc"⟩, ⟨"main.py", "entry"⟩]
    (fun s => if s = summaryQueryText "main.py" then .error "boom" else .ok "sum")
    (fun _ => .ok "guide")
  have hok := (h.2.2 ⟨"README.md", "root doc"⟩ (by decide)).1 "sum" (by rfl)
  have herr := (h.2.2 ⟨"main.py", "entry"⟩ (by decide)).2 "boom" (by rfl)
  exact ⟨h.1, hok, herr.1, herr.2⟩

/-- C6: `generate_api_docs` has no per-file isolation: if any enumerated
source file's read or extraction call raises, the whole run's result is
that error — no documentation is produced for any file. -/
theorem C6_api_docs_abort (repoPath : String) (dirs : List WalkDir)
    (readF : String → Except String String)
    (extract : String → String → Except String APIFile) (fp : String)
    (hmem : fp ∈ apiSourceFiles repoPath dirs)
    (hfail : (∃ e, readF fp = .error e) ∨
      (∃ c e, readF fp = .ok c ∧ extract fp c = .error e)) :
    ∃ e, (generate_api_docs repoPath dirs readF extract).2 = .error e := by
  obtain ⟨e, he⟩ :=
    processApiFiles_error readF extract (apiSourceFiles repoPath dirs) fp hmem hfail
  refine ⟨e, ?_⟩
  have hne : apiSourceFiles repoPath dirs ≠ [] := List.ne_nil_of_mem hmem
  unfold generate_api_docs
  rw [if_neg (by simp [hne])]
  cases hpr : processApiFiles readF extract (apiSourceFiles repoPath dirs) with
  | mk evs r =>
    rw [hpr] at he
    simp only at he
    rw [he]

/-- C6 witness: a single source file whose read raises makes the whole
run error out. -/
theorem C6_api_docs_abort_witness :
    ∃ e, (generate_api_docs "repo" [⟨[], [("a.py", some 10)]⟩]
      (fun _ => .error "io boom") (fun _ _ => .error "unused")).2 = .error e :=
  C6_api_docs_abort "repo" [⟨[], [("a.py", some 10)]⟩]
    (fun _ => .error "io boom") (fun _ _ => .error "unused") "repo/a.py"
    (by decide) (Or.inl ⟨"io boom", rfl⟩)

/-- C8: `clone_or_pull_repo` swallows a raising git operation and returns
`None`, and a non-`None` return arises only from a successful pull or
clone, carrying the derived local path. -/
theorem C8_failure_returns_none (reposDir urlPath : String)
    (pathExists : String → Bool) (pull clone : Except String Unit) :
    (pathExists (reposDir ++ "/" ++ repoNameOfPath urlPath) = true →
      (∃ e, pull = .error e) →
      clone_or_pull_repo reposDir urlPath pathExists pull clone = none) ∧
    (pathExists (reposDir ++ "/" ++ repoNameOfPath urlPath) = false →
      (∃ e, clone = .error e) →
      clone_or_pull_repo reposDir urlPath pathExists pull clone = none) ∧
    (∀ p, clone_or_pull_repo reposDir urlPath pathExists pull clone = some p →
      p = reposDir ++ "/" ++ repoNameOfPath urlPath ∧
      ((pathExists (reposDir ++ "/" ++ repoNameOfPath urlPath) = true ∧ pull = .ok ()) ∨
        (pathExists (reposDir ++ "/" ++ repoNameOfPath urlPath) = false ∧
          clone = .ok ()))) := by
  refine ⟨?_, ?_, ?_⟩
  · rintro h ⟨e, he⟩
    simp [clone_or_pull_repo, h, he]
  · rintro h ⟨e, he⟩
    simp [clone_or_pull_repo, h, he]
  · intro p hp
    simp only [clone_or_pull_repo] at hp
    by_cases hex : pathExists (reposDir ++ "/" ++ repoNameOfPath urlPath) = true
    · rw [if_pos hex] at hp
      cases hpull : pull with
      | error e => rw [hpull] at hp; exact absurd hp (by simp)
      | ok u =>
        obtain ⟨⟩ := u
        rw [hpull] at hp
        simp only [Option.some.injEq] at hp
        exact ⟨hp.symm, Or.inl ⟨hex, rfl⟩⟩
    · rw [if_neg hex] at hp
      cases hclone : clone with
      | error e => rw [hclone] at hp; exact absurd hp (by simp)
      | ok u =>
        obtain ⟨⟩ := u
        rw [hclone] at hp
        simp only [Option.some.injEq] at hp
        exact ⟨hp.symm, Or.inr ⟨by simpa using hex, rfl⟩⟩

/-- C8 witness: a failing pull and a failing clone both return `None`;
a successful clone returns the derived path. -/
theorem C8_failure_returns_none_witness :
    clone_or_pull_repo "repos" "/u/proj.git" (fun _ => true)
      (.error "auth failed") (.ok ()) = none ∧
    clone_or_pull_repo "repos" "/u/proj.git" (fun _ => false)
      (.ok ()) (.error "network down") = none ∧
    ("repos/proj" : String) = "repos" ++ "/" ++ repoNameOfPath "/u/proj.git" := by
  refine ⟨?_, ?_, ?_⟩
  · exact (C8_failure_returns_none "repos" "/u/proj.git" (fun _ => true)
      (.error "auth failed") (.ok ())).1 rfl ⟨"auth failed", rfl⟩
  · exact (C8_failure_returns_none "repos" "/u/proj.git" (fun _ => false)
      (.ok ()) (.error "network down")).2.1 rfl ⟨"network down", rfl⟩
  · exact ((C8_failure_returns_none "repos" "/u/proj.git" (fun _ => false)
      (.ok ()) (.ok ())).2.2 "repos/proj" rfl).1

/-- C10: when no walked file outside the pruned directories has an
extension in the language table, `generate_api_docs` returns the fixed
message with an empty event trace — no file read and no extraction
call. -/
theorem C10_empty_source_files (repoPath : String) (dirs : List WalkDir)
    (readF : String → Except String String)
    (extract : String → String → Except String APIFile)
    (h : ∀ wd ∈ dirs,
      (apiDocExcludes.any fun d => pyIn d (rootStr repoPath wd.rel)) = false →
      ∀ f ∈ wd.files, EXTENSION_TO_LANGUAGE_MAP.lookup (splitextExt f.1) = none) :
    generate_api_docs repoPath dirs readF extract =
      ([], .ok "No source code files found to generate API documentation.") := by
  have hempty : apiSourceFiles repoPath dirs = [] := by
    unfold apiSourceFiles
    rw [List.flatMap_eq_nil_iff]
    intro wd hwd
    by_cases hpr : (apiDocExcludes.any fun d => pyIn d (rootStr repoPath wd.rel)) = true
    · rw [if_pos hpr]
    · rw [if_neg hpr]
      rw [Bool.not_eq_true] at hpr
      rw [List.filterMap_eq_nil_iff]
      intro f hf
      rw [h wd hwd hpr f hf]
      rfl
  unfold generate_api_docs
  rw [hempty]
  rfl

/-- C10 witness: a tree whose only files have no language-table
extension. -/
theorem C10_empty_source_files_witness :
    generate_api_docs "repo" [⟨[], [("notes.txt2", some 5), ("README", none)]⟩]
      (fun _ => .error "never called") (fun _ _ => .error "never called") =
      ([], .ok "No source code files found to generate API documentation.") :=
  C10_empty_source_files "repo" [⟨[], [("notes.txt2", some 5), ("README", none)]⟩]
    (fun _ => .error "never called") (fun _ _ => .error "never called") (by decide)
